import Mathlib

/-!
Verification of the terraform-provider-ibm fragments: the
ibm_is_vpn_server_route resource, the ibm_is_images data source and the
Power data sources (pi_key, pi_spp_placement_group).

Go pointers become `Option`, Go slices become `List`, Go errors become
`Except`/`Option`, and a nil-pointer dereference (a Go panic) is a `none`
at the outermost `Option` layer.  SDK calls and Terraform state writes are
supplied by explicit environments so that each handler is a pure function
of its inputs.
-/

namespace VpnServerRoute

/-! ## Go string splitting (strings.Split specialised to a one-character
separator, the only way the provider calls it). -/

/-- Go `strings.Split` on a single-character separator, over the character
list of the string. `splitOnChar sep "" = [[]]` just as in Go. -/
def splitOnChar (sep : Char) : List Char → List (List Char)
  | [] => [[]]
  | c :: cs =>
    if c = sep then [] :: splitOnChar sep cs
    else
      match splitOnChar sep cs with
      | [] => [[c]]
      | h :: t => (c :: h) :: t

/-! ## flex.SepIdParts and the composite route ID -/

/-- Modelled from the spec: `flex.SepIdParts` (not under src/) decomposes a
composite ID by splitting on the separator, and errors when the separator
does not occur in the ID at all.  Every call site in the source passes the
one-character separator string `"/"`, so the separator is a `Char` here. -/
def SepIdParts (id : String) (sep : Char) : Except String (List String) :=
  if sep ∈ id.data then .ok ((splitOnChar sep id.data).map String.mk)
  else .error "The given id is formatted incorrectly"

/-- The composite ID built by `resourceIBMIsVPNServerRouteCreate` via
`d.SetId(fmt.Sprintf("%s/%s", *createVPNServerRouteOptions.VPNServerID, *vpnServerRoute.ID))`. -/
def resourceIBMIsVPNServerRouteCreateID (vpnServerID routeID : String) : String :=
  vpnServerID ++ "/" ++ routeID

/-- The pair of path parameters (`SetVPNServerID`, `SetID`) that the
handlers extract from the composite ID. -/
structure RouteCallOptions where
  vpnServerID : String
  routeID : String
deriving DecidableEq, Repr

/-- Shared shape of the `parts[0]`/`parts[1]` extraction; the indexing in Go
can only be reached when `SepIdParts` succeeded, which guarantees at least
two parts, so out-of-range indexing is rendered with a default. -/
def routeOptionsOfParts (parts : List String) : RouteCallOptions :=
  { vpnServerID := parts.getD 0 "", routeID := parts.getD 1 "" }

/-- ID parsing as performed in `resourceIBMIsVPNServerRouteRead`. -/
def readRouteOptionsOf (id : String) : Except String RouteCallOptions :=
  match SepIdParts id '/' with
  | .error e => .error e
  | .ok parts => .ok (routeOptionsOfParts parts)

/-- ID parsing as performed in `resourceIBMIsVPNServerRouteUpdate`. -/
def updateRouteOptionsOf (id : String) : Except String RouteCallOptions :=
  match SepIdParts id '/' with
  | .error e => .error e
  | .ok parts => .ok (routeOptionsOfParts parts)

/-- ID parsing as performed in `resourceIBMIsVPNServerRouteDelete`. -/
def deleteRouteOptionsOf (id : String) : Except String RouteCallOptions :=
  match SepIdParts id '/' with
  | .error e => .error e
  | .ok parts => .ok (routeOptionsOfParts parts)

/-- ID parsing as performed inside the `Refresh` closure of
`isWaitForVPNServerRouteStable`. -/
def stableRefreshOptionsOf (id : String) : Except String RouteCallOptions :=
  match SepIdParts id '/' with
  | .error e => .error e
  | .ok parts => .ok (routeOptionsOfParts parts)

/-- ID parsing as performed inside the `Refresh` closure of
`isWaitForVPNServerRouteDeleted`. -/
def deletedRefreshOptionsOf (id : String) : Except String RouteCallOptions :=
  match SepIdParts id '/' with
  | .error e => .error e
  | .ok parts => .ok (routeOptionsOfParts parts)

/-! ## Diagnostics

The provider surfaces errors in four shapes: plain `diag.FromErr`, plain
`diag.Errorf`, `flex.TerraformErrorf(err, msg, resource, action)` and
`flex.DiscriminatedTerraformErrorf(err, msg, resource, action, step)`. -/

inductive Diagnostic where
  | fromErr (msg : String)
  | errorf (msg : String)
  | tfError (msg resource action : String)
  | tfDiscriminated (msg resource action step : String)
deriving DecidableEq, Repr

/-- The resource name carried by a diagnostic, when any. -/
def Diagnostic.resourceName : Diagnostic → Option String
  | .fromErr _ => none
  | .errorf _ => none
  | .tfError _ r _ => some r
  | .tfDiscriminated _ r _ _ => some r

/-- The action label carried by a diagnostic, when any. -/
def Diagnostic.actionName : Diagnostic → Option String
  | .fromErr _ => none
  | .errorf _ => none
  | .tfError _ _ a => some a
  | .tfDiscriminated _ _ a _ => some a

/-- Whether a diagnostic carries all three of a resource name, an action and
a sub-step label (only the discriminated flex wrapper does). -/
def Diagnostic.hasResourceActionStep : Diagnostic → Bool
  | .tfDiscriminated _ _ _ _ => true
  | _ => false

/-! ## SDK response types for a VPN server route (vpcv1 structs; Go
pointers become `Option`, Go slices become `List`; a nil slice is `none`,
distinguishing it from an empty one as the `!= nil` checks in the source
do). -/

structure VPNServerRouteLifecycleReason where
  code : Option String
  message : Option String
  moreInfo : Option String
deriving DecidableEq, Repr

structure VPNServerRouteHealthReason where
  code : Option String
  message : Option String
  moreInfo : Option String
deriving DecidableEq, Repr

structure VPNServerRoute where
  id : Option String
  destination : Option String
  action : Option String
  name : Option String
  createdAt : Option String
  healthState : Option String
  healthReasons : Option (List VPNServerRouteHealthReason)
  href : Option String
  lifecycleState : Option String
  lifecycleReasons : Option (List VPNServerRouteLifecycleReason)
  resourceType : Option String
deriving DecidableEq, Repr

/-! ## Attribute flattening helpers

The schema in the source names the per-reason keys `code`, `message` and
`more_info`; the Go constants `isInstanceLifecycleReasons*` and
`isVolumeHealthReasons*` (defined elsewhere in the repository) hold those
names. -/

def isInstanceLifecycleReasonsCode : String := "code"

def isInstanceLifecycleReasonsMessage : String := "message"

def isInstanceLifecycleReasonsMoreInfo : String := "more_info"

def isVolumeHealthReasonsCode : String := "code"

def isVolumeHealthReasonsMessage : String := "message"

def isVolumeHealthReasonsMoreInfo : String := "more_info"

/-- `resourceVPNServerRouteFlattenLifecycleReasons`: one ordered key/value
map per reason whose `Code` and `Message` pointers are both non-nil,
appended in input order (the Go loop appends to an accumulator; the
structural recursion below produces the same list). -/
def resourceVPNServerRouteFlattenLifecycleReasons :
    List VPNServerRouteLifecycleReason → List (List (String × String))
  | [] => []
  | lr :: rest =>
    match lr.code, lr.message with
    | some c, some m =>
      (([(isInstanceLifecycleReasonsCode, c), (isInstanceLifecycleReasonsMessage, m)] ++
        (match lr.moreInfo with
         | some mi => [(isInstanceLifecycleReasonsMoreInfo, mi)]
         | none => []))) :: resourceVPNServerRouteFlattenLifecycleReasons rest
    | _, _ => resourceVPNServerRouteFlattenLifecycleReasons rest

/-- `resourceVPNServerRouteFlattenHealthReasons`: same shape as the
lifecycle variant. -/
def resourceVPNServerRouteFlattenHealthReasons :
    List VPNServerRouteHealthReason → List (List (String × String))
  | [] => []
  | hr :: rest =>
    match hr.code, hr.message with
    | some c, some m =>
      (([(isVolumeHealthReasonsCode, c), (isVolumeHealthReasonsMessage, m)] ++
        (match hr.moreInfo with
         | some mi => [(isVolumeHealthReasonsMoreInfo, mi)]
         | none => []))) :: resourceVPNServerRouteFlattenHealthReasons rest
    | _, _ => resourceVPNServerRouteFlattenHealthReasons rest

/-- Spec-side description of one flattened lifecycle-reason map: a faithful
field-for-field copy of code, message and (when present) more_info. -/
def lifecycleReasonEntry (lr : VPNServerRouteLifecycleReason) : List (String × String) :=
  [(isInstanceLifecycleReasonsCode, lr.code.getD ""),
   (isInstanceLifecycleReasonsMessage, lr.message.getD "")] ++
  (match lr.moreInfo with
   | some mi => [(isInstanceLifecycleReasonsMoreInfo, mi)]
   | none => [])

/-- Spec-side description of one flattened health-reason map. -/
def healthReasonEntry (hr : VPNServerRouteHealthReason) : List (String × String) :=
  [(isVolumeHealthReasonsCode, hr.code.getD ""),
   (isVolumeHealthReasonsMessage, hr.message.getD "")] ++
  (match hr.moreInfo with
   | some mi => [(isVolumeHealthReasonsMoreInfo, mi)]
   | none => [])

/-! ## Lifecycle status constants -/

def isVPNServerRouteStatusPending : String := "pending"

def isVPNServerRouteStatusUpdating : String := "updating"

def isVPNServerRouteStatusStable : String := "stable"

def isVPNServerRouteStatusFailed : String := "failed"

def isVPNServerRouteStatusDeleting : String := "deleting"

def isVPNServerRouteStatusDeleted : String := "deleted"

/-- Modelled from the spec: the constant `isVPNServerStatusPending` is
declared in the VPN-server resource file, which is not under src/; the
spec's poll description ("while the reported lifecycle state is a pending
value ('pending' or 'updating')") fixes its value. -/
def isVPNServerStatusPending : String := "pending"

/-- Modelled from the spec: `isVPNServerStatusStable`, declared outside
src/; the spec's poll description fixes it to "stable". -/
def isVPNServerStatusStable : String := "stable"

/-- Modelled from the spec: `isVPNServerStatusDeleted`, declared outside
src/; the spec's delete-poll description ("until the state reaches
'deleted' or 'failed'") fixes it to "deleted". -/
def isVPNServerStatusDeleted : String := "deleted"

/-! ## The GET call and the two Refresh closures -/

/-- Outcome of one `GetVPNServerRouteWithContext` call: success, an error
with a non-nil detailed response carrying an HTTP status code, or an error
with a nil response. -/
inductive GetRouteOutcome where
  | ok (route : VPNServerRoute)
  | errWith (msg : String) (statusCode : Nat)
  | errNone (msg : String)
deriving DecidableEq, Repr

/-- The `(interface\x7b\x7d, string, error)` triple a `Refresh` closure
returns. -/
structure RefreshResult (α : Type) where
  value : Option α
  state : String
  error : Option Diagnostic

/-- The `Refresh` closure of `isWaitForVPNServerRouteStable`.  `none`
renders the Go panic on dereferencing a nil `LifecycleState`.  The source's
`if *route.LifecycleState == "stable" || ... == "failed"` returns the same
triple in both branches, so the embedding returns it unconditionally. -/
def stableRefresh (id : String) (get : GetRouteOutcome) :
    Option (RefreshResult VPNServerRoute) :=
  match stableRefreshOptionsOf id with
  | .error e =>
    some ⟨none, "", some (.tfDiscriminated e "ibm_is_vpn_server_route" "wait" "sep-id-parts")⟩
  | .ok _opts =>
    match get with
    | .errWith msg _ =>
      some ⟨none, "", some (.tfError msg "ibm_is_vpn_server_route" "wait")⟩
    | .errNone msg =>
      some ⟨none, "", some (.tfError msg "ibm_is_vpn_server_route" "wait")⟩
    | .ok route =>
      match route.lifecycleState with
      | none => none
      | some st => some ⟨some route, st, none⟩

/-- The `Refresh` closure of `isWaitForVPNServerRouteDeleted`: a GET error
whose response carries HTTP 404 is reported as the `deleted` state with a
nil error (and a nil route value, since the GET failed); any other GET
error is reported as the `failed` state together with the wrapped error. -/
def deletedRefresh (id : String) (get : GetRouteOutcome) :
    Option (RefreshResult VPNServerRoute) :=
  match deletedRefreshOptionsOf id with
  | .error e =>
    some ⟨none, "", some (.tfDiscriminated e "ibm_is_vpn_server_route" "delete-wait" "sep-id-parts")⟩
  | .ok _opts =>
    match get with
    | .errWith msg statusCode =>
      if statusCode = 404 then
        some ⟨none, isVPNServerRouteStatusDeleted, none⟩
      else
        some ⟨none, isVPNServerRouteStatusFailed,
          some (.tfError msg "ibm_is_vpn_server_route" "delete-wait")⟩
    | .errNone msg =>
      some ⟨none, isVPNServerRouteStatusFailed,
        some (.tfError msg "ibm_is_vpn_server_route" "delete-wait")⟩
    | .ok route =>
      match route.lifecycleState with
      | none => none
      | some st => some ⟨some route, st, none⟩

/-! ## The state-change polling primitive -/

/-- The fields of the `resource.StateChangeConf` literals the two wait
helpers build.  Durations are in seconds. -/
structure StateChangeConfData where
  pending : List String
  target : List String
  timeoutSeconds : Nat
  delaySeconds : Nat
  minTimeoutSeconds : Nat
deriving DecidableEq, Repr

/-- The conf literal of `isWaitForVPNServerRouteStable`; `timeoutSeconds`
is the caller-supplied timeout argument. -/
def stableStateConf (timeoutSeconds : Nat) : StateChangeConfData :=
  { pending := [isVPNServerStatusPending, isVPNServerRouteStatusUpdating]
    target := [isVPNServerStatusStable, isVPNServerRouteStatusFailed]
    timeoutSeconds := timeoutSeconds
    delaySeconds := 10
    minTimeoutSeconds := 10 }

/-- The create/update/delete timeouts carried by the resource data
(`d.Timeout(...)`), in seconds. -/
structure ResourceTimeouts where
  create : Nat
  update : Nat
  delete : Nat
deriving DecidableEq, Repr

/-- The conf literal of `isWaitForVPNServerRouteDeleted`; its timeout is
`d.Timeout(schema.TimeoutDelete)`, the resource's configured delete
timeout. -/
def deletedStateConf (timeouts : ResourceTimeouts) : StateChangeConfData :=
  { pending := ["retry", isVPNServerRouteStatusDeleting]
    target := [isVPNServerStatusDeleted, isVPNServerRouteStatusFailed]
    timeoutSeconds := timeouts.delete
    delaySeconds := 10
    minTimeoutSeconds := 10 }

/-- Result of `StateChangeConf.WaitForState`. -/
inductive PollResult (α : Type) where
  | success (value : Option α)
  | failed (e : Diagnostic)
  | unexpectedState (s : String)
  | timedOut
  | panicked

/-- Modelled from the spec: the Terraform SDK's generic state-change
polling primitive (`resource.StateChangeConf.WaitForState`, external to
this repository) "repeatedly calls the SDK's 'get' operation until a
reported lifecycle/health state reaches a target value or a timeout
elapses".  `refresh i` is the i-th refresh outcome; `fuel` is the number of
polls the caller-supplied deadline allows; exhausting it is the timeout. -/
def waitForState {α : Type} (pending target : List String)
    (refresh : Nat → Option (RefreshResult α)) : Nat → PollResult α
  | 0 => .timedOut
  | fuel + 1 =>
    match refresh 0 with
    | none => .panicked
    | some r =>
      match r.error with
      | some e => .failed e
      | none =>
        if r.state ∈ target then .success r.value
        else if r.state ∈ pending then
          waitForState pending target (fun i => refresh (i + 1)) fuel
        else .unexpectedState r.state

/-- `isWaitForVPNServerRouteStable`: polls the GET with the stable conf.
The wall-clock deadline is abstracted by `fuel`; the `timeoutSeconds`
argument mirrors the Go signature's `timeout` parameter and feeds the conf
literal. -/
def isWaitForVPNServerRouteStable (id : String) (get : Nat → GetRouteOutcome)
    (timeoutSeconds fuel : Nat) : PollResult VPNServerRoute :=
  waitForState (stableStateConf timeoutSeconds).pending (stableStateConf timeoutSeconds).target
    (fun i => stableRefresh id (get i)) fuel

/-- `isWaitForVPNServerRouteDeleted`: polls the GET with the deleted conf;
its timeout comes from the resource data's delete timeout. -/
def isWaitForVPNServerRouteDeleted (id : String) (get : Nat → GetRouteOutcome)
    (timeouts : ResourceTimeouts) (fuel : Nat) : PollResult VPNServerRoute :=
  waitForState (deletedStateConf timeouts).pending (deletedStateConf timeouts).target
    (fun i => deletedRefresh id (get i)) fuel

/-! ## The Read handler -/

/-- Environment of one Read invocation: the `vpcClient(meta)` outcome, the
GET outcome, and which `d.Set` calls fail (by attribute name). -/
structure ReadEnv where
  clientInit : Except String Unit
  get : GetRouteOutcome
  setFails : String → Bool

/-- A handler's observable outcome: the stored resource ID afterwards and
the diagnostic it returned, if any. -/
structure HandlerResult where
  id : String
  diag : Option Diagnostic
deriving DecidableEq, Repr

/-- The attributes `resourceIBMIsVPNServerRouteRead` sets, in source order;
`health_reasons` and `lifecycle_reasons` are set only when the response
slice is non-nil. -/
def readSetFields (route : VPNServerRoute) : List String :=
  ["vpn_server", "vpn_route", "destination", "action", "name", "created_at", "health_state"] ++
    (if route.healthReasons.isSome then ["health_reasons"] else []) ++
    ["href", "lifecycle_state"] ++
    (if route.lifecycleReasons.isSome then ["lifecycle_reasons"] else []) ++
    ["resource_type"]

/-- `resourceIBMIsVPNServerRouteRead`.  Client-init and ID-parse failures
return plain `diag.FromErr`; a GET error whose response carries HTTP 404
clears the ID (`d.SetId("")`) and returns nil; any other GET error and any
`d.Set` failure return a discriminated flex diagnostic (the GET error's
sub-step label is the source's literal `"sep-id-parts"`). -/
def resourceIBMIsVPNServerRouteRead (env : ReadEnv) (id : String) : HandlerResult :=
  match env.clientInit with
  | .error e => { id := id, diag := some (.fromErr e) }
  | .ok _ =>
    match readRouteOptionsOf id with
    | .error e => { id := id, diag := some (.fromErr e) }
    | .ok _opts =>
      match env.get with
      | .errWith msg statusCode =>
        if statusCode = 404 then { id := "", diag := none }
        else
          { id := id,
            diag := some (.tfDiscriminated msg "ibm_is_vpn_server_route" "read" "sep-id-parts") }
      | .errNone msg =>
        { id := id,
          diag := some (.tfDiscriminated msg "ibm_is_vpn_server_route" "read" "sep-id-parts") }
      | .ok route =>
        match (readSetFields route).find? env.setFails with
        | some f =>
          { id := id,
            diag := some (.tfDiscriminated "set failed" "ibm_is_vpn_server_route" "read"
              ("set-" ++ f)) }
        | none => { id := id, diag := none }

/-! ## The Delete handler -/

/-- Environment of one Delete invocation: client init, the
`DeleteVPNServerRoute` call outcome, the GET outcomes the delete poll will
observe, and the poll budget. -/
structure DeleteEnv where
  clientInit : Except String Unit
  deleteCall : Except String Unit
  get : Nat → GetRouteOutcome
  fuel : Nat

/-- The error message the delete handler wraps when the wait helper fails
(the source formats the helper's error into
`"isWaitForVPNServerRouteStable failed: ..."` — its literal, mislabeled
text). -/
def deleteWaitFailureMsg : String := "isWaitForVPNServerRouteStable failed"

/-- `resourceIBMIsVPNServerRouteDelete`.  `none` is a propagated panic from
the poll's refresh closure; `d.SetId("")` runs only after the delete call
and the wait helper both returned without error. -/
def resourceIBMIsVPNServerRouteDelete (env : DeleteEnv) (id : String)
    (timeouts : ResourceTimeouts) : Option HandlerResult :=
  match env.clientInit with
  | .error e =>
    some { id := id,
           diag := some (.tfDiscriminated e "ibm_is_vpn_server_route" "delete" "initialize-client") }
  | .ok _ =>
    match deleteRouteOptionsOf id with
    | .error e =>
      some { id := id,
             diag := some (.tfDiscriminated e "ibm_is_vpn_server_route" "delete" "sep-id-parts") }
    | .ok _opts =>
      match env.deleteCall with
      | .error e =>
        some { id := id, diag := some (.tfError e "ibm_is_vpn_server_route" "delete") }
      | .ok _ =>
        match isWaitForVPNServerRouteDeleted id env.get timeouts env.fuel with
        | .success _ => some { id := "", diag := none }
        | .failed _ =>
          some { id := id,
                 diag := some (.tfError deleteWaitFailureMsg "ibm_is_vpn_server_route" "delete") }
        | .unexpectedState _ =>
          some { id := id,
                 diag := some (.tfError deleteWaitFailureMsg "ibm_is_vpn_server_route" "delete") }
        | .timedOut =>
          some { id := id,
                 diag := some (.tfError deleteWaitFailureMsg "ibm_is_vpn_server_route" "delete") }
        | .panicked => none

end VpnServerRoute

namespace PowerDataSources

open VpnServerRoute (Diagnostic)

/-! ## The Power data-source read handlers (pi_key, spp placement group) -/

/-- Fields of `models.SSHKey` the pi_key read touches. -/
structure PIKeyData where
  name : Option String
  creationDate : Option String
  description : Option String
  sshKey : Option String
  keyID : Option String
  visibility : Option String
  primaryWorkspace : Option Bool
deriving DecidableEq, Repr

structure PIKeyReadEnv where
  session : Except String Unit
  getKey : Except String PIKeyData

/-- `dataSourceIBMPIKeyRead`.  Session and SDK failures are surfaced
through plain `diag.FromErr`; on success the handler dereferences
`*sshkeydata.Name` for `d.SetId` and calls `CreationDate.String()` (both
panic on nil, rendered as `none`); the `d.Set` return values are discarded
by the source.  The `.ok` value is the ID the handler stored. -/
def dataSourceIBMPIKeyRead (env : PIKeyReadEnv) : Option (Except Diagnostic String) :=
  match env.session with
  | .error e => some (.error (.fromErr e))
  | .ok _ =>
    match env.getKey with
    | .error e => some (.error (.fromErr e))
    | .ok sshkeydata =>
      match sshkeydata.name, sshkeydata.creationDate with
      | some nm, some _ => some (.ok nm)
      | _, _ => none

/-- Fields of the SPP placement-group response the read touches.  `crn` is
a value type in the SDK (compared against `""`, never dereferenced). -/
structure SPPPlacementGroupData where
  id : Option String
  crn : String
  memberSharedProcessorPools : List String
  name : Option String
  policy : Option String
deriving DecidableEq, Repr

structure SPPReadEnv where
  session : Except String Unit
  getGroup : Except String (Option SPPPlacementGroupData)

/-- `dataSourceIBMPISPPPlacementGroupRead`.  Session failures go through
plain `diag.FromErr`; a failed or nil GET response goes through plain
`diag.Errorf`; tag-fetch failures are only logged.  The `.ok` value is the
stored ID (`*response.ID`, whose dereference panics on nil). -/
def dataSourceIBMPISPPPlacementGroupRead (env : SPPReadEnv) :
    Option (Except Diagnostic String) :=
  match env.session with
  | .error e => some (.error (.fromErr e))
  | .ok _ =>
    match env.getGroup with
    | .error e => some (.error (.errorf ("error fetching the spp placement group: " ++ e)))
    | .ok none => some (.error (.errorf "error fetching the spp placement group: nil response"))
    | .ok (some response) =>
      match response.id with
      | none => none
      | some idv => some (.ok idv)

end PowerDataSources

namespace VpcImages

open VpnServerRoute (Diagnostic)

/-! ## SDK response types for images (vpcv1.Image and friends) -/

structure ImageStatusReason where
  code : Option String
  message : Option String
  moreInfo : Option String
deriving DecidableEq, Repr

structure ResourceGroupReference where
  href : Option String
  id : Option String
  name : Option String
deriving DecidableEq, Repr

structure OperatingSystem where
  allowUserImageCreation : Option Bool
  architecture : Option String
  dedicatedHostOnly : Option Bool
  displayName : Option String
  family : Option String
  href : Option String
  name : Option String
  vendor : Option String
  version : Option String
  userDataFormat : Option String
deriving DecidableEq, Repr

structure ImageFileChecksums where
  sha256 : Option String
deriving DecidableEq, Repr

structure ImageFile where
  checksums : Option ImageFileChecksums
deriving DecidableEq, Repr

structure EncryptionKeyReference where
  crn : Option String
deriving DecidableEq, Repr

structure VolumeReference where
  id : Option String
deriving DecidableEq, Repr

structure CatalogOfferingVersionReference where
  crn : Option String
deriving DecidableEq, Repr

structure ImageCatalogOffering where
  managed : Option Bool
  version : Option CatalogOfferingVersionReference
deriving DecidableEq, Repr

structure AccountReference where
  id : Option String
  resourceType : Option String
deriving DecidableEq, Repr

structure ImageRemote where
  account : Option AccountReference
deriving DecidableEq, Repr

structure ImageAllowedUse where
  apiVersion : Option String
  bareMetalServer : Option String
  instanceExpr : Option String
deriving DecidableEq, Repr

structure Image where
  name : Option String
  id : Option String
  status : Option String
  crn : Option String
  visibility : Option String
  userDataFormat : Option String
  statusReasons : List ImageStatusReason
  resourceGroup : Option ResourceGroupReference
  operatingSystem : Option OperatingSystem
  file : Option ImageFile
  encryption : Option String
  encryptionKey : Option EncryptionKeyReference
  sourceVolume : Option VolumeReference
  catalogOffering : Option ImageCatalogOffering
  remote : Option ImageRemote
  allowedUse : Option ImageAllowedUse
deriving DecidableEq, Repr

/-- Values stored in the Terraform attribute maps
(`map[string]interface\x7b\x7d` entries, in insertion order). -/
inductive AttrValue where
  | str (s : String)
  | booln (b : Bool)
  | strList (l : List String)
  | entryList (l : List (List (String × AttrValue)))

/-- One flattened attribute map. -/
def AttrMap : Type := List (String × AttrValue)

/-! ## Flattening helpers called by imageList.  These functions live in
other files of the repository (not under src/), so they are modelled from
the spec's description as faithful field-for-field copies. -/

/-- Modelled from the spec: `dataSourceIBMIsImageFlattenStatusReasons`
(status reasons flattening; declared outside src/), a field-for-field copy
of code/message/more_info per reason. -/
def dataSourceIBMIsImageFlattenStatusReasons (rs : List ImageStatusReason) :
    List (List (String × AttrValue)) :=
  rs.map fun r =>
    [("code", .str (r.code.getD "")), ("message", .str (r.message.getD "")),
     ("more_info", .str (r.moreInfo.getD ""))]

/-- Modelled from the spec: `dataSourceImageResourceGroupToMap` (resource
group reference flattening; declared outside src/). -/
def dataSourceImageResourceGroupToMap (rg : ResourceGroupReference) :
    List (String × AttrValue) :=
  [("href", .str (rg.href.getD "")), ("id", .str (rg.id.getD "")),
   ("name", .str (rg.name.getD ""))]

/-- Modelled from the spec: `dataSourceIBMISImageOperatingSystemToMap`
(operating-system info flattening; declared outside src/). -/
def dataSourceIBMISImageOperatingSystemToMap (os : OperatingSystem) :
    List (String × AttrValue) :=
  [("allow_user_image_creation", .booln (os.allowUserImageCreation.getD false)),
   ("architecture", .str (os.architecture.getD "")),
   ("dedicated_host_only", .booln (os.dedicatedHostOnly.getD false)),
   ("display_name", .str (os.displayName.getD "")),
   ("family", .str (os.family.getD "")),
   ("href", .str (os.href.getD "")),
   ("name", .str (os.name.getD "")),
   ("vendor", .str (os.vendor.getD "")),
   ("version", .str (os.version.getD "")),
   ("user_data_format", .str (os.userDataFormat.getD ""))]

/-- Modelled from the spec: `dataSourceImageCollectionCatalogOfferingToMap`
(catalog offering info flattening; declared outside src/). -/
def dataSourceImageCollectionCatalogOfferingToMap (co : ImageCatalogOffering) :
    List (String × AttrValue) :=
  [("managed", .booln (co.managed.getD false)),
   ("version", .entryList (match co.version with
     | some v => [[("crn", .str (v.crn.getD ""))]]
     | none => []))]

/-- Modelled from the spec: `dataSourceImageRemote` (remote-account info
flattening; declared outside src/), returning the remote-account map,
empty when no account is attached. -/
def dataSourceImageRemote (image : Image) : List (String × AttrValue) :=
  match image.remote with
  | some rem =>
    (match rem.account with
     | some acct =>
       [("account", .entryList [[("id", .str (acct.id.getD "")),
         ("resource_type", .str (acct.resourceType.getD ""))]])]
     | none => [])
  | none => []

/-- Modelled from the spec: `DataSourceIBMIsImageAllowedUseToMap` (usage
constraints flattening; declared outside src/). -/
def dataSourceIBMIsImageAllowedUseToMap (au : ImageAllowedUse) :
    List (String × AttrValue) :=
  [("api_version", .str (au.apiVersion.getD "")),
   ("bare_metal_server", .str (au.bareMetalServer.getD "")),
   ("instance", .str (au.instanceExpr.getD ""))]

/-! ## Per-image map construction (the body of imageList's result loop,
src/ibm/service/vpc/data_source_ibm_is_images.go lines 485-565) -/

/-- `if image.File != nil && image.File.Checksums != nil` followed by the
`*image.File.Checksums.Sha256` dereference (which panics on nil). -/
def appendChecksum (l : List (String × AttrValue)) (file : Option ImageFile) :
    Option (List (String × AttrValue)) :=
  match file with
  | none => some l
  | some f =>
    match f.checksums with
    | none => some l
    | some cs =>
      match cs.sha256 with
      | none => none
      | some sha => some (l ++ [("checksum", .str sha)])

/-- `if image.EncryptionKey != nil` followed by the
`*image.EncryptionKey.CRN` dereference. -/
def appendEncryptionKey (l : List (String × AttrValue)) (key : Option EncryptionKeyReference) :
    Option (List (String × AttrValue)) :=
  match key with
  | none => some l
  | some k =>
    match k.crn with
    | none => none
    | some c => some (l ++ [("encryption_key", .str c)])

/-- `if image.SourceVolume != nil` followed by the `*image.SourceVolume.ID`
dereference. -/
def appendSourceVolume (l : List (String × AttrValue)) (vol : Option VolumeReference) :
    Option (List (String × AttrValue)) :=
  match vol with
  | none => some l
  | some v =>
    match v.id with
    | none => none
    | some vid => some (l ++ [("source_volume", .str vid)])

/-- The conditional appends of the result loop that follow the
`operating_system` block (checksum through access tags), in source order;
kept as a named pipeline so the append-only shape can be stated once. -/
def imageToMapTail (tagsOf : String → List String) (image : Image) (crnV : String)
    (l : List (String × AttrValue)) : Option (List (String × AttrValue)) :=
  (appendChecksum l image.file).bind fun l =>
  let l := match image.encryption with
    | some e => l ++ [("encryption", .str e)]
    | none => l
  (appendEncryptionKey l image.encryptionKey).bind fun l =>
  (appendSourceVolume l image.sourceVolume).bind fun l =>
  let l := match image.catalogOffering with
    | some co =>
      l ++ [("catalog_offering", .entryList [dataSourceImageCollectionCatalogOfferingToMap co])]
    | none => l
  let l := match image.remote with
    | some _ =>
      let remoteMap := dataSourceImageRemote image
      if remoteMap.length > 0 then l ++ [("remote", .entryList [remoteMap])] else l
    | none => l
  let l := match image.allowedUse with
    | some au => l ++ [("allowed_use", .entryList [dataSourceIBMIsImageAllowedUseToMap au])]
    | none => l
  some (l ++ [("access_tags", .strList (tagsOf crnV))])

/-- The map `imageList` builds for one image.  The base literal
unconditionally dereferences `Name`, `ID`, `Status`, `CRN`, `Visibility`,
`OperatingSystem.Name` and `OperatingSystem.Architecture`; a `none` result
is the Go panic on a nil pointer.  `tagsOf` supplies
`flex.GetGlobalTagsUsingCRN` (whose failure is only logged). -/
def imageToMap (tagsOf : String → List String) (image : Image) :
    Option (List (String × AttrValue)) :=
  match image.name, image.id, image.status, image.crn, image.visibility,
      image.operatingSystem with
  | some nameV, some idV, some statusV, some crnV, some visibilityV, some os =>
    match os.name, os.architecture with
    | some osName, some osArch =>
      let l : List (String × AttrValue) :=
        [("name", .str nameV), ("id", .str idV), ("status", .str statusV),
         ("crn", .str crnV), ("visibility", .str visibilityV),
         ("os", .str osName), ("architecture", .str osArch)]
      let l := match image.userDataFormat with
        | some u => l ++ [("user_data_format", .str u)]
        | none => l
      let l := if image.statusReasons.length > 0 then
          l ++ [("status_reasons",
            .entryList (dataSourceIBMIsImageFlattenStatusReasons image.statusReasons))]
        else l
      let l := match image.resourceGroup with
        | some rg => l ++ [("resource_group", .entryList [dataSourceImageResourceGroupToMap rg])]
        | none => l
      let l := match image.operatingSystem with
        | some os2 =>
          l ++ [("operating_system", .entryList [dataSourceIBMISImageOperatingSystemToMap os2])]
        | none => l
      imageToMapTail tagsOf image crnV l
    | _, _ => none
  | _, _, _, _, _, _ => none

/-- The `imagesInfo` accumulation loop over the filtered record list; the
first panic aborts the whole handler. -/
def imagesInfoOf (tagsOf : String → List String) :
    List Image → Option (List (List (String × AttrValue)))
  | [] => some []
  | img :: rest =>
    match imageToMap tagsOf img with
    | none => none
    | some m =>
      match imagesInfoOf tagsOf rest with
      | none => none
      | some ms => some (m :: ms)

/-! ## Request-option construction (lines 384-445) -/

/-- The arguments of the ibm_is_images data source; `none` is an unset
attribute.  `d.GetOk` also reports `ok = false` for a zero value, so an
attribute set to the empty string behaves like an unset one. -/
structure ImagesArgs where
  resourceGroupID : Option String
  name : Option String
  visibility : Option String
  remoteAccountId : Option String
  status : Option String
  catalogManaged : Option Bool
  userDataFormats : List String
deriving DecidableEq, Repr

/-- The fields of `vpcv1.ListImagesOptions` the data source sets. -/
structure ListImagesOptions where
  resourceGroupID : Option String
  name : Option String
  visibility : Option String
  remoteAccountID : Option String
  userDataFormat : Option (List String)
deriving DecidableEq, Repr

/-- The option-building prefix of `imageList`: each filter is applied only
when the corresponding argument is non-empty, and `remote_account_id` is
translated — `"user"` to the literal filter `"null"`, `"provider"` to
`"not:null"`, anything else passed through unchanged. -/
def buildListImagesOptions (args : ImagesArgs) : ListImagesOptions :=
  let resourceGroupID := args.resourceGroupID.getD ""
  let imageName := args.name.getD ""
  let visibility := args.visibility.getD ""
  let remoteAccountId := args.remoteAccountId.getD ""
  let opts : ListImagesOptions :=
    { resourceGroupID := none, name := none, visibility := none,
      remoteAccountID := none, userDataFormat := none }
  let opts := if resourceGroupID ≠ "" then
      { opts with resourceGroupID := some resourceGroupID } else opts
  let opts := if imageName ≠ "" then { opts with name := some imageName } else opts
  let opts := if remoteAccountId ≠ "" then
      (if remoteAccountId = "user" then { opts with remoteAccountID := some "null" }
       else if remoteAccountId = "provider" then { opts with remoteAccountID := some "not:null" }
       else { opts with remoteAccountID := some remoteAccountId })
    else opts
  let opts := if visibility ≠ "" then { opts with visibility := some visibility } else opts
  let opts := if args.userDataFormats.length ≠ 0 then
      { opts with userDataFormat := some args.userDataFormats } else opts
  opts

/-! ## The pagination loop (lines 447-462) -/

/-- One page of the `ListImages` response; `next` is the start token of the
next page, already extracted from the next link's href. -/
structure ImageCollectionPage where
  images : List Image
  next : Option String
deriving DecidableEq, Repr

/-- Outcome of one `ListImagesWithContext` call. -/
inductive ListImagesOutcome where
  | ok (page : ImageCollectionPage)
  | err (msg : String)
deriving DecidableEq, Repr

/-- Modelled from the spec: `flex.GetNext` (declared outside src/) yields
the empty string when a page reports no next link, which is the loop's exit
condition. -/
def GetNext : Option String → String
  | none => ""
  | some s => s

/-- The `for` loop of `imageList`: one `ListImages` request per page
(`respond i` answers the i-th request), each page's `Images` appended in
order to `allrecs`, exiting exactly when `flex.GetNext` returns the empty
string.  `none` means the loop is still running after `fuel` requests. -/
def imageListPages (fuel : Nat) (respond : Nat → ListImagesOutcome)
    (allrecs : List Image) : Option (Except Diagnostic (List Image)) :=
  match fuel with
  | 0 => none
  | fuel + 1 =>
    match respond 0 with
    | .err msg => some (.error (.tfError msg "(Data) ibm_is_images" "read"))
    | .ok page =>
      let start := GetNext page.next
      let allrecs := allrecs ++ page.images
      if start = "" then some (.ok allrecs)
      else imageListPages fuel (fun i => respond (i + 1)) allrecs

/-- All pointers whose dereference the result loop performs
unconditionally on every listed image. -/
def requiredImagePtrsPresent (image : Image) : Bool :=
  image.name.isSome && image.id.isSome && image.status.isSome &&
    image.crn.isSome && image.visibility.isSome &&
    (match image.operatingSystem with
     | some os => os.name.isSome && os.architecture.isSome
     | none => false)

/-- Whether a flattened image map carries an `operating_system` entry. -/
def hasOperatingSystemEntry (m : List (String × AttrValue)) : Bool :=
  m.any fun kv => kv.1 == "operating_system"

end VpcImages

namespace VpnServerRoute

/-! ## Concrete sample values used by the witness theorems -/

/-- A route response with every optional field absent. -/
def emptyRoute : VPNServerRoute :=
  { id := none, destination := none, action := none, name := none, createdAt := none,
    healthState := none, healthReasons := none, href := none, lifecycleState := none,
    lifecycleReasons := none, resourceType := none }

/-- A sample poll state sequence: one pending report, then stable. -/
def sampleStableStates (i : Nat) : String :=
  if i = 0 then "pending" else "stable"

/-- A sample poll state sequence for deletion: one deleting report, then
deleted. -/
def sampleDeletedStates (i : Nat) : String :=
  if i = 0 then "deleting" else "deleted"

/-- Routes reporting `sampleStableStates`. -/
def sampleStableRoute (i : Nat) : VPNServerRoute :=
  { emptyRoute with lifecycleState := some (sampleStableStates i) }

/-- Routes reporting `sampleDeletedStates`. -/
def sampleDeletedRoute (i : Nat) : VPNServerRoute :=
  { emptyRoute with lifecycleState := some (sampleDeletedStates i) }

end VpnServerRoute

namespace VpcImages

/-! ## Concrete sample values used by the witness theorems -/

/-- A sample image with every unconditionally dereferenced pointer
present. -/
def sampleImage : Image :=
  { name := some "img", id := some "r006-1", status := some "available",
    crn := some "crn:img", visibility := some "public", userDataFormat := none,
    statusReasons := [], resourceGroup := none,
    operatingSystem := some
      { allowUserImageCreation := none, architecture := some "amd64",
        dedicatedHostOnly := none, displayName := none, family := none, href := none,
        name := some "ubuntu", vendor := none, version := none, userDataFormat := none },
    file := none, encryption := none, encryptionKey := none, sourceVolume := none,
    catalogOffering := none, remote := none, allowedUse := none }

/-- No access tags. -/
def noTags : String → List String := fun _ => []

/-- The flattened maps of `[sampleImage]`, for the C10 witness. -/
def sampleImageMaps : List (List (String × AttrValue)) :=
  (imagesInfoOf noTags [sampleImage]).getD []

end VpcImages

namespace VpnServerRoute

/-! ## Helper lemmas -/

theorem splitOnChar_ne_nil (sep : Char) (l : List Char) : splitOnChar sep l ≠ [] := by
  induction l with
  | nil => simp [splitOnChar]
  | cons c cs ih =>
    simp only [splitOnChar]
    split
    · simp
    · match h : splitOnChar sep cs with
      | [] => exact absurd h ih
      | a :: t => simp

theorem splitOnChar_of_not_mem (sep : Char) (l : List Char) (h : sep ∉ l) :
    splitOnChar sep l = [l] := by
  induction l with
  | nil => rfl
  | cons c cs ih =>
    have hc : c ≠ sep := fun hcs => h (hcs ▸ List.mem_cons_self c cs)
    have hcs : sep ∉ cs := fun hm => h (List.mem_cons_of_mem _ hm)
    simp [splitOnChar, hc, ih hcs]

theorem splitOnChar_append_sep (sep : Char) (s r : List Char) (hs : sep ∉ s) :
    splitOnChar sep (s ++ sep :: r) = s :: splitOnChar sep r := by
  induction s with
  | nil => simp [splitOnChar]
  | cons c cs ih =>
    have hc : c ≠ sep := fun hcs => hs (hcs ▸ List.mem_cons_self c cs)
    have hcs : sep ∉ cs := fun hm => hs (List.mem_cons_of_mem _ hm)
    have ih' := ih hcs
    simp only [List.cons_append, splitOnChar, hc, if_false, List.append_eq]
    rw [ih']

theorem splitOnChar_two_parts (sep : Char) (s r : List Char)
    (hs : sep ∉ s) (hr : sep ∉ r) :
    splitOnChar sep (s ++ sep :: r) = [s, r] := by
  rw [splitOnChar_append_sep sep s r hs, splitOnChar_of_not_mem sep r hr]

theorem flattenLifecycleReasons_eq_filter_map (ls : List VPNServerRouteLifecycleReason) :
    resourceVPNServerRouteFlattenLifecycleReasons ls =
      (ls.filter fun r => r.code.isSome && r.message.isSome).map lifecycleReasonEntry := by
  induction ls with
  | nil => rfl
  | cons lr rest ih =>
    match hc : lr.code, hm : lr.message with
    | some c, some m =>
      simp [resourceVPNServerRouteFlattenLifecycleReasons, hc, hm, ih,
        List.filter_cons, lifecycleReasonEntry]
    | some c, none =>
      simp [resourceVPNServerRouteFlattenLifecycleReasons, hc, hm, ih, List.filter_cons]
    | none, some m =>
      simp [resourceVPNServerRouteFlattenLifecycleReasons, hc, hm, ih, List.filter_cons]
    | none, none =>
      simp [resourceVPNServerRouteFlattenLifecycleReasons, hc, hm, ih, List.filter_cons]

theorem flattenHealthReasons_eq_filter_map (hs : List VPNServerRouteHealthReason) :
    resourceVPNServerRouteFlattenHealthReasons hs =
      (hs.filter fun r => r.code.isSome && r.message.isSome).map healthReasonEntry := by
  induction hs with
  | nil => rfl
  | cons hr rest ih =>
    match hc : hr.code, hm : hr.message with
    | some c, some m =>
      simp [resourceVPNServerRouteFlattenHealthReasons, hc, hm, ih,
        List.filter_cons, healthReasonEntry]
    | some c, none =>
      simp [resourceVPNServerRouteFlattenHealthReasons, hc, hm, ih, List.filter_cons]
    | none, some m =>
      simp [resourceVPNServerRouteFlattenHealthReasons, hc, hm, ih, List.filter_cons]
    | none, none =>
      simp [resourceVPNServerRouteFlattenHealthReasons, hc, hm, ih, List.filter_cons]

theorem sepIdParts_createID (s r : String)
    (hsSlash : ('/' : Char) ∉ s.data) (hrSlash : ('/' : Char) ∉ r.data) :
    SepIdParts (resourceIBMIsVPNServerRouteCreateID s r) '/' = .ok [s, r] := by
  have hdata : (resourceIBMIsVPNServerRouteCreateID s r).data = s.data ++ '/' :: r.data := by
    simp [resourceIBMIsVPNServerRouteCreateID, String.data_append]
  have hmem : ('/' : Char) ∈ (resourceIBMIsVPNServerRouteCreateID s r).data := by
    rw [hdata]; exact List.mem_append_right _ (List.mem_cons_self _ _)
  rw [SepIdParts, if_pos hmem, hdata, splitOnChar_two_parts '/' s.data r.data hsSlash hrSlash]
  rfl

/-! ## Claim theorems -/

/-- C1: For every VPN server identifier `s` and route identifier `r`
(non-empty, containing no `/`), the composite resource ID built by
`resourceIBMIsVPNServerRouteCreate` as `s ++ "/" ++ r` decomposes (via
splitting on `/`) back into exactly the two constituents `[s, r]`, and
Read, Update, Delete, and both poll helpers recover `s` as the VPN-server
path parameter and `r` as the route path parameter from that ID. -/
theorem composite_route_id_roundtrip (s r : String) (hs : s ≠ "") (hr : r ≠ "")
    (hsSlash : ('/' : Char) ∉ s.data) (hrSlash : ('/' : Char) ∉ r.data) :
    SepIdParts (resourceIBMIsVPNServerRouteCreateID s r) '/' = .ok [s, r] ∧
    readRouteOptionsOf (resourceIBMIsVPNServerRouteCreateID s r) =
      .ok { vpnServerID := s, routeID := r } ∧
    updateRouteOptionsOf (resourceIBMIsVPNServerRouteCreateID s r) =
      .ok { vpnServerID := s, routeID := r } ∧
    deleteRouteOptionsOf (resourceIBMIsVPNServerRouteCreateID s r) =
      .ok { vpnServerID := s, routeID := r } ∧
    stableRefreshOptionsOf (resourceIBMIsVPNServerRouteCreateID s r) =
      .ok { vpnServerID := s, routeID := r } ∧
    deletedRefreshOptionsOf (resourceIBMIsVPNServerRouteCreateID s r) =
      .ok { vpnServerID := s, routeID := r } := by
  have h := sepIdParts_createID s r hsSlash hrSlash
  refine ⟨h, ?_, ?_, ?_, ?_, ?_⟩ <;>
    simp [readRouteOptionsOf, updateRouteOptionsOf, deleteRouteOptionsOf,
      stableRefreshOptionsOf, deletedRefreshOptionsOf, h, routeOptionsOfParts, List.getD]

theorem composite_route_id_roundtrip_witness :
    SepIdParts (resourceIBMIsVPNServerRouteCreateID "srv" "rt") '/' = .ok ["srv", "rt"] ∧
    readRouteOptionsOf (resourceIBMIsVPNServerRouteCreateID "srv" "rt") =
      .ok { vpnServerID := "srv", routeID := "rt" } ∧
    updateRouteOptionsOf (resourceIBMIsVPNServerRouteCreateID "srv" "rt") =
      .ok { vpnServerID := "srv", routeID := "rt" } ∧
    deleteRouteOptionsOf (resourceIBMIsVPNServerRouteCreateID "srv" "rt") =
      .ok { vpnServerID := "srv", routeID := "rt" } ∧
    stableRefreshOptionsOf (resourceIBMIsVPNServerRouteCreateID "srv" "rt") =
      .ok { vpnServerID := "srv", routeID := "rt" } ∧
    deletedRefreshOptionsOf (resourceIBMIsVPNServerRouteCreateID "srv" "rt") =
      .ok { vpnServerID := "srv", routeID := "rt" } :=
  composite_route_id_roundtrip "srv" "rt" (by decide) (by decide) (by decide) (by decide)

/-- C2: when the GET of a Read fails with HTTP 404, the handler clears the
stored ID and returns success with no diagnostic; and the delete poll's
refresh reports a 404 GET error as the `deleted` state with no error —
a state that belongs to the poll's target list. -/
theorem read_404_clears_state (env : ReadEnv) (id msg : String)
    (timeouts : ResourceTimeouts)
    (hinit : env.clientInit = .ok ())
    (hid : ('/' : Char) ∈ id.data)
    (hget : env.get = .errWith msg 404) :
    resourceIBMIsVPNServerRouteRead env id = { id := "", diag := none } ∧
    deletedRefresh id (.errWith msg 404) =
      some ⟨none, isVPNServerRouteStatusDeleted, none⟩ ∧
    isVPNServerRouteStatusDeleted ∈ (deletedStateConf timeouts).target := by
  refine ⟨?_, ?_, ?_⟩
  · simp [resourceIBMIsVPNServerRouteRead, hinit, hget, readRouteOptionsOf, SepIdParts, hid]
  · simp [deletedRefresh, deletedRefreshOptionsOf, SepIdParts, hid]
  · simp [deletedStateConf, isVPNServerStatusDeleted, isVPNServerRouteStatusDeleted]

theorem read_404_clears_state_witness :
    resourceIBMIsVPNServerRouteRead
      { clientInit := .ok (), get := .errWith "not found" 404, setFails := fun _ => false }
      "srv/rt" = { id := "", diag := none } ∧
    deletedRefresh "srv/rt" (.errWith "not found" 404) =
      some ⟨none, isVPNServerRouteStatusDeleted, none⟩ ∧
    isVPNServerRouteStatusDeleted ∈ (deletedStateConf ⟨600, 600, 600⟩).target :=
  read_404_clears_state
    { clientInit := .ok (), get := .errWith "not found" 404, setFails := fun _ => false }
    "srv/rt" "not found" ⟨600, 600, 600⟩ rfl (by decide) rfl

/-- C3 as stated is false: a lifecycle reason whose code pointer is nil
produces no output map, so the output is not one map per input element and
the lengths differ. -/
theorem flatten_reasons_drops_nil_code :
    (resourceVPNServerRouteFlattenLifecycleReasons
        [{ code := none, message := some "m", moreInfo := none }]).length ≠
      ([{ code := none, message := some "m", moreInfo := none }] :
          List VPNServerRouteLifecycleReason).length := by
  decide

/-- C3 (amended): the flatten helpers return, in input order, one map per
input element whose code and message are both non-nil, each map a faithful
copy of that element's code, message and (when present) more_info; the
output length equals the input length whenever every element has non-nil
code and message. -/
theorem flatten_reasons_faithful_copy (ls : List VPNServerRouteLifecycleReason)
    (hs : List VPNServerRouteHealthReason) :
    resourceVPNServerRouteFlattenLifecycleReasons ls =
      (ls.filter fun r => r.code.isSome && r.message.isSome).map lifecycleReasonEntry ∧
    resourceVPNServerRouteFlattenHealthReasons hs =
      (hs.filter fun r => r.code.isSome && r.message.isSome).map healthReasonEntry ∧
    ((∀ r ∈ ls, r.code.isSome ∧ r.message.isSome) →
      (resourceVPNServerRouteFlattenLifecycleReasons ls).length = ls.length) ∧
    ((∀ r ∈ hs, r.code.isSome ∧ r.message.isSome) →
      (resourceVPNServerRouteFlattenHealthReasons hs).length = hs.length) := by
  refine ⟨flattenLifecycleReasons_eq_filter_map ls, flattenHealthReasons_eq_filter_map hs,
    ?_, ?_⟩
  · intro hall
    rw [flattenLifecycleReasons_eq_filter_map, List.length_map,
      List.filter_eq_self.mpr fun r hr => by simp [(hall r hr).1, (hall r hr).2]]
  · intro hall
    rw [flattenHealthReasons_eq_filter_map, List.length_map,
      List.filter_eq_self.mpr fun r hr => by simp [(hall r hr).1, (hall r hr).2]]

theorem flatten_reasons_faithful_copy_witness :
    (resourceVPNServerRouteFlattenLifecycleReasons
        [{ code := some "c", message := some "m", moreInfo := none }]).length =
      ([{ code := some "c", message := some "m", moreInfo := none }] :
          List VPNServerRouteLifecycleReason).length :=
  (flatten_reasons_faithful_copy
      [{ code := some "c", message := some "m", moreInfo := none }] []).2.2.1 (by decide)

theorem waitForState_success_at {α : Type} (pending target : List String)
    (refresh : Nat → Option (RefreshResult α)) (k : Nat) :
    ∀ (fuel : Nat), k < fuel →
      (∀ i, i < k → ∃ r, refresh i = some r ∧ r.error = none ∧
        r.state ∉ target ∧ r.state ∈ pending) →
      ∀ (rk : RefreshResult α), refresh k = some rk → rk.error = none →
        rk.state ∈ target →
        waitForState pending target refresh fuel = .success rk.value := by
  induction k generalizing refresh with
  | zero =>
    intro fuel hk _hpend rk hrk herr htgt
    match fuel, hk with
    | fuel + 1, _ =>
      simp [waitForState, hrk, herr, htgt]
  | succ k ih =>
    intro fuel hk hpend rk hrk herr htgt
    match fuel, hk with
    | fuel + 1, hk =>
      obtain ⟨r0, h0, he0, hnt0, hp0⟩ := hpend 0 (Nat.succ_pos k)
      simp only [waitForState, h0, he0, if_neg hnt0, if_pos hp0]
      exact ih (fun i => refresh (i + 1)) fuel (Nat.lt_of_succ_lt_succ hk)
        (fun i hi => hpend (i + 1) (Nat.succ_lt_succ hi)) rk hrk herr htgt

theorem waitForState_timeout {α : Type} (pending target : List String) :
    ∀ (fuel : Nat) (refresh : Nat → Option (RefreshResult α)),
      (∀ i, i < fuel → ∃ r, refresh i = some r ∧ r.error = none ∧
        r.state ∉ target ∧ r.state ∈ pending) →
      waitForState pending target refresh fuel = .timedOut := by
  intro fuel
  induction fuel with
  | zero => intro refresh _; rfl
  | succ f ih =>
    intro refresh hpend
    obtain ⟨r0, h0, he0, hnt0, hp0⟩ := hpend 0 (Nat.succ_pos f)
    simp only [waitForState, h0, he0, if_neg hnt0, if_pos hp0]
    exact ih (fun i => refresh (i + 1)) (fun i hi => hpend (i + 1) (Nat.succ_lt_succ hi))

theorem stableRefresh_ok (id : String) (hid : ('/' : Char) ∈ id.data)
    (route : VPNServerRoute) (s : String) (hlc : route.lifecycleState = some s) :
    stableRefresh id (.ok route) = some ⟨some route, s, none⟩ := by
  simp [stableRefresh, stableRefreshOptionsOf, SepIdParts, hid, hlc]

theorem deletedRefresh_ok (id : String) (hid : ('/' : Char) ∈ id.data)
    (route : VPNServerRoute) (s : String) (hlc : route.lifecycleState = some s) :
    deletedRefresh id (.ok route) = some ⟨some route, s, none⟩ := by
  simp [deletedRefresh, deletedRefreshOptionsOf, SepIdParts, hid, hlc]

/-- C4: `isWaitForVPNServerRouteStable` keeps re-issuing the GET while the
reported lifecycle state is a pending value (`pending` or `updating`) and
returns as soon as a GET reports `stable` or `failed`, or times out when
only pending states are observed within the poll budget;
`isWaitForVPNServerRouteDeleted` likewise polls through `retry`/`deleting`
until `deleted` or `failed`, or times out. -/
theorem wait_helpers_poll_until_target (id : String) (hid : ('/' : Char) ∈ id.data)
    (route : Nat → VPNServerRoute) (st : Nat → String)
    (hst : ∀ i, (route i).lifecycleState = some (st i))
    (t : Nat) (timeouts : ResourceTimeouts) (k fuel : Nat) :
    (k < fuel →
      (∀ i, i < k → st i = isVPNServerStatusPending ∨ st i = isVPNServerRouteStatusUpdating) →
      (st k = isVPNServerStatusStable ∨ st k = isVPNServerRouteStatusFailed) →
      isWaitForVPNServerRouteStable id (fun i => .ok (route i)) t fuel =
        .success (some (route k))) ∧
    ((∀ i, i < fuel → st i = isVPNServerStatusPending ∨ st i = isVPNServerRouteStatusUpdating) →
      isWaitForVPNServerRouteStable id (fun i => .ok (route i)) t fuel = .timedOut) ∧
    (k < fuel →
      (∀ i, i < k → st i = "retry" ∨ st i = isVPNServerRouteStatusDeleting) →
      (st k = isVPNServerStatusDeleted ∨ st k = isVPNServerRouteStatusFailed) →
      isWaitForVPNServerRouteDeleted id (fun i => .ok (route i)) timeouts fuel =
        .success (some (route k))) ∧
    ((∀ i, i < fuel → st i = "retry" ∨ st i = isVPNServerRouteStatusDeleting) →
      isWaitForVPNServerRouteDeleted id (fun i => .ok (route i)) timeouts fuel = .timedOut) := by
  have hsr : ∀ i, stableRefresh id (.ok (route i)) = some ⟨some (route i), st i, none⟩ :=
    fun i => stableRefresh_ok id hid (route i) (st i) (hst i)
  have hdr : ∀ i, deletedRefresh id (.ok (route i)) = some ⟨some (route i), st i, none⟩ :=
    fun i => deletedRefresh_ok id hid (route i) (st i) (hst i)
  refine ⟨?_, ?_, ?_, ?_⟩
  · intro hk hpend htgt
    refine waitForState_success_at _ _ _ k fuel hk ?_ ⟨some (route k), st k, none⟩ (hsr k) rfl ?_
    · intro i hi
      refine ⟨⟨some (route i), st i, none⟩, hsr i, rfl, ?_, ?_⟩ <;>
        rcases hpend i hi with h | h <;>
          simp [h, stableStateConf, isVPNServerStatusPending, isVPNServerRouteStatusUpdating,
            isVPNServerStatusStable, isVPNServerRouteStatusFailed]
    · rcases htgt with h | h <;>
        simp [h, stableStateConf, isVPNServerStatusStable, isVPNServerRouteStatusFailed]
  · intro hpend
    refine waitForState_timeout _ _ fuel _ ?_
    intro i hi
    refine ⟨⟨some (route i), st i, none⟩, hsr i, rfl, ?_, ?_⟩ <;>
      rcases hpend i hi with h | h <;>
        simp [h, stableStateConf, isVPNServerStatusPending, isVPNServerRouteStatusUpdating,
          isVPNServerStatusStable, isVPNServerRouteStatusFailed]
  · intro hk hpend htgt
    refine waitForState_success_at _ _ _ k fuel hk ?_ ⟨some (route k), st k, none⟩ (hdr k) rfl ?_
    · intro i hi
      refine ⟨⟨some (route i), st i, none⟩, hdr i, rfl, ?_, ?_⟩ <;>
        rcases hpend i hi with h | h <;>
          simp [h, deletedStateConf, isVPNServerRouteStatusDeleting,
            isVPNServerStatusDeleted, isVPNServerRouteStatusFailed]
    · rcases htgt with h | h <;>
        simp [h, deletedStateConf, isVPNServerStatusDeleted, isVPNServerRouteStatusFailed]
  · intro hpend
    refine waitForState_timeout _ _ fuel _ ?_
    intro i hi
    refine ⟨⟨some (route i), st i, none⟩, hdr i, rfl, ?_, ?_⟩ <;>
      rcases hpend i hi with h | h <;>
        simp [h, deletedStateConf, isVPNServerRouteStatusDeleting,
          isVPNServerStatusDeleted, isVPNServerRouteStatusFailed]

theorem wait_helpers_poll_until_target_witness :
    isWaitForVPNServerRouteStable "srv/rt" (fun i => .ok (sampleStableRoute i)) 600 3 =
      .success (some (sampleStableRoute 1)) ∧
    isWaitForVPNServerRouteDeleted "srv/rt" (fun i => .ok (sampleDeletedRoute i))
      ⟨600, 600, 600⟩ 3 = .success (some (sampleDeletedRoute 1)) := by
  have h := wait_helpers_poll_until_target "srv/rt" (by decide)
    sampleStableRoute sampleStableStates (fun i => rfl) 600 ⟨600, 600, 600⟩ 1 3
  have h' := wait_helpers_poll_until_target "srv/rt" (by decide)
    sampleDeletedRoute sampleDeletedStates (fun i => rfl) 600 ⟨600, 600, 600⟩ 1 3
  refine ⟨h.1 (by decide) ?_ ?_, h'.2.2.1 (by decide) ?_ ?_⟩
  · intro i hi
    have : i = 0 := by omega
    subst this
    left; rfl
  · left; rfl
  · intro i hi
    have : i = 0 := by omega
    subst this
    right; rfl
  · left; rfl

/-- C6: both poll helpers configure a 10-second initial delay and a
10-second minimum poll interval, and their overall deadline is the
caller-supplied timeout — the stable helper's `timeout` argument and the
resource's configured delete timeout respectively. -/
theorem poll_conf_delays_and_timeout (t : Nat) (timeouts : ResourceTimeouts) :
    (stableStateConf t).delaySeconds = 10 ∧
    (stableStateConf t).minTimeoutSeconds = 10 ∧
    (stableStateConf t).timeoutSeconds = t ∧
    (deletedStateConf timeouts).delaySeconds = 10 ∧
    (deletedStateConf timeouts).minTimeoutSeconds = 10 ∧
    (deletedStateConf timeouts).timeoutSeconds = timeouts.delete :=
  ⟨rfl, rfl, rfl, rfl, rfl, rfl⟩

/-- C9: the Delete handler clears the stored composite ID exactly when the
delete call and the wait-for-deleted poll both succeeded (no diagnostic);
on every error path it returns a diagnostic and leaves the stored ID
unchanged. -/
theorem delete_clears_id_only_on_success (env : DeleteEnv) (id : String)
    (timeouts : ResourceTimeouts) (res : HandlerResult)
    (hres : resourceIBMIsVPNServerRouteDelete env id timeouts = some res) :
    (res.diag = none ↔
      env.clientInit = .ok () ∧ (∃ o, deleteRouteOptionsOf id = .ok o) ∧
      env.deleteCall = .ok () ∧
      ∃ v, isWaitForVPNServerRouteDeleted id env.get timeouts env.fuel = .success v) ∧
    (res.diag = none → res.id = "") ∧
    (∀ d, res.diag = some d → res.id = id) := by
  unfold resourceIBMIsVPNServerRouteDelete at hres
  cases hinit : env.clientInit with
  | error e =>
    simp only [hinit] at hres
    injection hres with h
    subst h
    exact ⟨by simp [hinit], by simp, fun d _ => rfl⟩
  | ok u =>
    cases u
    simp only [hinit] at hres
    cases hparse : deleteRouteOptionsOf id with
    | error e =>
      simp only [hparse] at hres
      injection hres with h
      subst h
      exact ⟨by simp [hparse], by simp, fun d _ => rfl⟩
    | ok o =>
      simp only [hparse] at hres
      cases hdel : env.deleteCall with
      | error e =>
        simp only [hdel] at hres
        injection hres with h
        subst h
        exact ⟨by simp [hdel], by simp, fun d _ => rfl⟩
      | ok u2 =>
        cases u2
        simp only [hdel] at hres
        cases hwait : isWaitForVPNServerRouteDeleted id env.get timeouts env.fuel with
        | success v =>
          simp only [hwait] at hres
          injection hres with h
          subst h
          exact ⟨by simp [hinit, hparse, hdel, hwait], fun _ => rfl,
            fun d hd => by simp at hd⟩
        | failed e =>
          simp only [hwait] at hres
          injection hres with h
          subst h
          exact ⟨by simp [hwait], by simp, fun d _ => rfl⟩
        | unexpectedState s =>
          simp only [hwait] at hres
          injection hres with h
          subst h
          exact ⟨by simp [hwait], by simp, fun d _ => rfl⟩
        | timedOut =>
          simp only [hwait] at hres
          injection hres with h
          subst h
          exact ⟨by simp [hwait], by simp, fun d _ => rfl⟩
        | panicked =>
          simp only [hwait] at hres
          cases hres

theorem delete_clears_id_only_on_success_witness :
    ({ id := "", diag := none } : HandlerResult).id = "" :=
  (delete_clears_id_only_on_success
    { clientInit := .ok (), deleteCall := .ok (),
      get := fun _ => .errWith "gone" 404, fuel := 1 }
    "srv/rt" ⟨600, 600, 600⟩ { id := "", diag := none } rfl).2.1 rfl

/-- C5 as stated is false: a session-initialization failure in
`dataSourceIBMPIKeyRead` is surfaced through plain `diag.FromErr`, a
diagnostic carrying neither a resource name, nor an action, nor a sub-step
label. -/
theorem pi_key_read_error_not_wrapped :
    PowerDataSources.dataSourceIBMPIKeyRead
      { session := .error "session init failed", getKey := .error "unused" } =
      some (.error (.fromErr "session init failed")) ∧
    Diagnostic.hasResourceActionStep (.fromErr "session init failed") = false ∧
    PowerDataSources.dataSourceIBMPISPPPlacementGroupRead
      { session := .ok (), getGroup := .error "boom" } =
      some (.error (.errorf "error fetching the spp placement group: boom")) ∧
    Diagnostic.hasResourceActionStep (.errorf "error fetching the spp placement group: boom") =
      false :=
  ⟨rfl, rfl, rfl, rfl⟩

/-- C5 (amended): errors surfaced by the VPN-server-route Delete handler
are wrapped into flex diagnostics carrying the resource name
`ibm_is_vpn_server_route` and the action `delete` (client-initialization
and ID-parse failures also carry a sub-step label); the Power data-source
reads, by contrast, surface their errors as plain `diag.FromErr` /
`diag.Errorf` diagnostics without resource name, action, or sub-step. -/
theorem delete_errors_carry_resource_and_action (env : DeleteEnv) (id : String)
    (timeouts : ResourceTimeouts) (res : HandlerResult) (d : Diagnostic)
    (hres : resourceIBMIsVPNServerRouteDelete env id timeouts = some res)
    (hdiag : res.diag = some d) :
    d.resourceName = some "ibm_is_vpn_server_route" ∧ d.actionName = some "delete" := by
  unfold resourceIBMIsVPNServerRouteDelete at hres
  cases hinit : env.clientInit with
  | error e =>
    simp only [hinit] at hres
    injection hres with h
    subst h
    simp only [Option.some.injEq] at hdiag
    subst hdiag
    exact ⟨rfl, rfl⟩
  | ok u =>
    cases u
    simp only [hinit] at hres
    cases hparse : deleteRouteOptionsOf id with
    | error e =>
      simp only [hparse] at hres
      injection hres with h
      subst h
      simp only [Option.some.injEq] at hdiag
      subst hdiag
      exact ⟨rfl, rfl⟩
    | ok o =>
      simp only [hparse] at hres
      cases hdel : env.deleteCall with
      | error e =>
        simp only [hdel] at hres
        injection hres with h
        subst h
        simp only [Option.some.injEq] at hdiag
        subst hdiag
        exact ⟨rfl, rfl⟩
      | ok u2 =>
        cases u2
        simp only [hdel] at hres
        cases hwait : isWaitForVPNServerRouteDeleted id env.get timeouts env.fuel with
        | success v =>
          simp only [hwait] at hres
          injection hres with h
          subst h
          simp at hdiag
        | failed e =>
          simp only [hwait] at hres
          injection hres with h
          subst h
          simp only [Option.some.injEq] at hdiag
          subst hdiag
          exact ⟨rfl, rfl⟩
        | unexpectedState s =>
          simp only [hwait] at hres
          injection hres with h
          subst h
          simp only [Option.some.injEq] at hdiag
          subst hdiag
          exact ⟨rfl, rfl⟩
        | timedOut =>
          simp only [hwait] at hres
          injection hres with h
          subst h
          simp only [Option.some.injEq] at hdiag
          subst hdiag
          exact ⟨rfl, rfl⟩
        | panicked =>
          simp only [hwait] at hres
          cases hres

theorem delete_errors_carry_resource_and_action_witness :
    Diagnostic.resourceName
        (.tfDiscriminated "no client" "ibm_is_vpn_server_route" "delete" "initialize-client") =
      some "ibm_is_vpn_server_route" ∧
    Diagnostic.actionName
        (.tfDiscriminated "no client" "ibm_is_vpn_server_route" "delete" "initialize-client") =
      some "delete" :=
  delete_errors_carry_resource_and_action
    { clientInit := .error "no client", deleteCall := .ok (),
      get := fun _ => .errWith "gone" 404, fuel := 1 }
    "srv/rt" ⟨600, 600, 600⟩
    { id := "srv/rt",
      diag := some (.tfDiscriminated "no client" "ibm_is_vpn_server_route" "delete"
        "initialize-client") }
    (.tfDiscriminated "no client" "ibm_is_vpn_server_route" "delete" "initialize-client")
    rfl rfl

end VpnServerRoute

namespace VpcImages

/-! ## Helper lemmas for the pagination loop -/

theorem imageListPages_terminates_at :
    ∀ (N : Nat) (pages : Nat → ImageCollectionPage) (respond : Nat → ListImagesOutcome),
      (∀ i, i ≤ N → respond i = .ok (pages i)) →
      (∀ i, i < N → GetNext (pages i).next ≠ "") →
      GetNext (pages N).next = "" →
      ∀ fuel, N < fuel → ∀ acc,
        imageListPages fuel respond acc =
          some (.ok (acc ++ ((List.range (N + 1)).map fun i => (pages i).images).flatten)) := by
  intro N
  induction N with
  | zero =>
    intro pages respond hok _hmid hlast fuel hfuel acc
    match fuel, hfuel with
    | fuel + 1, _ =>
      have h0 := hok 0 (Nat.le_refl 0)
      simp [imageListPages, h0, hlast, List.range_succ, List.range_zero]
  | succ N ih =>
    intro pages respond hok hmid hlast fuel hfuel acc
    match fuel, hfuel with
    | fuel + 1, hfuel =>
      have h0 := hok 0 (Nat.zero_le _)
      have hne := hmid 0 (Nat.succ_pos N)
      have hrec := ih (fun i => pages (i + 1)) (fun i => respond (i + 1))
        (fun i hi => hok (i + 1) (Nat.succ_le_succ hi))
        (fun i hi => hmid (i + 1) (Nat.succ_lt_succ hi))
        hlast fuel (Nat.lt_of_succ_lt_succ hfuel) (acc ++ (pages 0).images)
      simp only [imageListPages, h0, if_neg hne]
      rw [hrec]
      have hmap : (List.range (N + 1 + 1)).map (fun i => (pages i).images) =
          (pages 0).images :: (List.range (N + 1)).map fun i => (pages (i + 1)).images := by
        rw [List.range_succ_eq_map, List.map_cons, List.map_map]
        simp [Function.comp, Nat.succ_eq_add_one]
      rw [hmap]
      simp [List.append_assoc]

theorem imageListPages_no_final_page :
    ∀ (fuel : Nat) (respond : Nat → ListImagesOutcome),
      (∀ i, ∃ p, respond i = .ok p ∧ GetNext p.next ≠ "") →
      ∀ acc, imageListPages fuel respond acc = none := by
  intro fuel
  induction fuel with
  | zero => intro respond _ acc; rfl
  | succ f ih =>
    intro respond h acc
    obtain ⟨p, hp, hne⟩ := h 0
    simp only [imageListPages, hp, if_neg hne]
    exact ih (fun i => respond (i + 1)) (fun i => h (i + 1)) _

/-- C7: the pagination loop of `imageList` issues one ListImages request
per page, appends each page's Images in order, and terminates exactly when
a page reports no next link: with a final page at index `N` it returns the
concatenation of the first `N+1` pages within any sufficient poll budget,
and with no final page it never finishes. -/
theorem imageList_pagination_terminates (respond : Nat → ListImagesOutcome) :
    (∀ (pages : Nat → ImageCollectionPage) (N : Nat),
        (∀ i, i ≤ N → respond i = .ok (pages i)) →
        (∀ i, i < N → GetNext (pages i).next ≠ "") →
        GetNext (pages N).next = "" →
        ∀ fuel, N < fuel →
          imageListPages fuel respond [] =
            some (.ok (((List.range (N + 1)).map fun i => (pages i).images).flatten))) ∧
    ((∀ i, ∃ p, respond i = .ok p ∧ GetNext p.next ≠ "") →
        ∀ fuel acc, imageListPages fuel respond acc = none) := by
  constructor
  · intro pages N hok hmid hlast fuel hfuel
    have h := imageListPages_terminates_at N pages respond hok hmid hlast fuel hfuel []
    simpa using h
  · intro h fuel acc
    exact imageListPages_no_final_page fuel respond h acc

theorem imageList_pagination_terminates_witness :
    imageListPages 1 (fun _ => .ok { images := [sampleImage], next := none }) [] =
      some (.ok (((List.range (0 + 1)).map fun _ =>
        ({ images := [sampleImage], next := none } : ImageCollectionPage).images).flatten)) :=
  (imageList_pagination_terminates (fun _ => .ok { images := [sampleImage], next := none })).1
    (fun _ => { images := [sampleImage], next := none }) 0
    (fun _ _ => rfl) (fun i hi => absurd hi (Nat.not_lt_zero i)) rfl 1 Nat.one_pos

/-! ## Helper lemma for the option building -/

theorem buildListImagesOptions_remoteAccountID (args : ImagesArgs) :
    (buildListImagesOptions args).remoteAccountID =
      (if args.remoteAccountId.getD "" ≠ "" then
        (if args.remoteAccountId.getD "" = "user" then some "null"
         else if args.remoteAccountId.getD "" = "provider" then some "not:null"
         else some (args.remoteAccountId.getD ""))
       else none) := by
  simp only [buildListImagesOptions]
  simp [apply_ite ListImagesOptions.remoteAccountID]

/-- C8: the remote_account_id argument is translated before being sent to
the SDK: `"user"` becomes the literal filter `"null"`, `"provider"`
becomes `"not:null"`, any other non-empty value is passed through
unchanged, and when the argument is unset or empty no remote-account
filter is applied. -/
theorem remote_account_id_translation (args : ImagesArgs) :
    (args.remoteAccountId = some "user" →
      (buildListImagesOptions args).remoteAccountID = some "null") ∧
    (args.remoteAccountId = some "provider" →
      (buildListImagesOptions args).remoteAccountID = some "not:null") ∧
    (∀ v, args.remoteAccountId = some v → v ≠ "" → v ≠ "user" → v ≠ "provider" →
      (buildListImagesOptions args).remoteAccountID = some v) ∧
    ((args.remoteAccountId = none ∨ args.remoteAccountId = some "") →
      (buildListImagesOptions args).remoteAccountID = none) := by
  refine ⟨?_, ?_, ?_, ?_⟩
  · intro h
    rw [buildListImagesOptions_remoteAccountID]
    simp [h]
  · intro h
    rw [buildListImagesOptions_remoteAccountID]
    simp [h]
  · intro v h hne hu hp
    rw [buildListImagesOptions_remoteAccountID]
    simp [h, hne, hu, hp]
  · intro h
    rw [buildListImagesOptions_remoteAccountID]
    rcases h with h | h <;> simp [h]

theorem remote_account_id_translation_witness :
    (buildListImagesOptions
      { resourceGroupID := none, name := none, visibility := none,
        remoteAccountId := some "acct-123", status := none, catalogManaged := none,
        userDataFormats := [] }).remoteAccountID = some "acct-123" :=
  (remote_account_id_translation
    { resourceGroupID := none, name := none, visibility := none,
      remoteAccountId := some "acct-123", status := none, catalogManaged := none,
      userDataFormats := [] }).2.2.1 "acct-123" rfl (by decide) (by decide) (by decide)

/-! ## Helper lemmas for the per-image map construction -/

theorem appendChecksum_mem (l a : List (String × AttrValue)) (file : Option ImageFile)
    (h : appendChecksum l file = some a) (kv : String × AttrValue) (hkv : kv ∈ l) :
    kv ∈ a := by
  cases file with
  | none =>
    simp only [appendChecksum] at h
    injection h with h
    exact h ▸ hkv
  | some f =>
    cases hcs : f.checksums with
    | none =>
      simp only [appendChecksum, hcs] at h
      injection h with h
      exact h ▸ hkv
    | some cs =>
      cases hsha : cs.sha256 with
      | none => simp [appendChecksum, hcs, hsha] at h
      | some sha =>
        simp only [appendChecksum, hcs, hsha] at h
        injection h with h
        exact h ▸ List.mem_append_left _ hkv

theorem appendEncryptionKey_mem (l a : List (String × AttrValue))
    (key : Option EncryptionKeyReference)
    (h : appendEncryptionKey l key = some a) (kv : String × AttrValue) (hkv : kv ∈ l) :
    kv ∈ a := by
  cases key with
  | none =>
    simp only [appendEncryptionKey] at h
    injection h with h
    exact h ▸ hkv
  | some k =>
    cases hc : k.crn with
    | none => simp [appendEncryptionKey, hc] at h
    | some c =>
      simp only [appendEncryptionKey, hc] at h
      injection h with h
      exact h ▸ List.mem_append_left _ hkv

theorem appendSourceVolume_mem (l a : List (String × AttrValue)) (vol : Option VolumeReference)
    (h : appendSourceVolume l vol = some a) (kv : String × AttrValue) (hkv : kv ∈ l) :
    kv ∈ a := by
  cases vol with
  | none =>
    simp only [appendSourceVolume] at h
    injection h with h
    exact h ▸ hkv
  | some v =>
    cases hv : v.id with
    | none => simp [appendSourceVolume, hv] at h
    | some vid =>
      simp only [appendSourceVolume, hv] at h
      injection h with h
      exact h ▸ List.mem_append_left _ hkv

theorem mem_encryptionAppend (image : Image) (l : List (String × AttrValue))
    (kv : String × AttrValue) (hkv : kv ∈ l) :
    kv ∈ (match image.encryption with
          | some e => l ++ [("encryption", AttrValue.str e)]
          | none => l) := by
  cases image.encryption <;> simp [List.mem_append, hkv]

theorem mem_catalogOfferingAppend (image : Image) (l : List (String × AttrValue))
    (kv : String × AttrValue) (hkv : kv ∈ l) :
    kv ∈ (match image.catalogOffering with
          | some co =>
            l ++ [("catalog_offering",
              AttrValue.entryList [dataSourceImageCollectionCatalogOfferingToMap co])]
          | none => l) := by
  cases image.catalogOffering <;> simp [List.mem_append, hkv]

theorem mem_remoteAppend (image : Image) (l : List (String × AttrValue))
    (kv : String × AttrValue) (hkv : kv ∈ l) :
    kv ∈ (match image.remote with
          | some _ =>
            let remoteMap := dataSourceImageRemote image
            if remoteMap.length > 0 then l ++ [("remote", AttrValue.entryList [remoteMap])] else l
          | none => l) := by
  cases image.remote with
  | none => exact hkv
  | some rem =>
    simp only []
    split <;> simp [List.mem_append, hkv]

theorem mem_allowedUseAppend (image : Image) (l : List (String × AttrValue))
    (kv : String × AttrValue) (hkv : kv ∈ l) :
    kv ∈ (match image.allowedUse with
          | some au =>
            l ++ [("allowed_use", AttrValue.entryList [dataSourceIBMIsImageAllowedUseToMap au])]
          | none => l) := by
  cases image.allowedUse <;> simp [List.mem_append, hkv]

theorem imageToMapTail_mem (tagsOf : String → List String) (image : Image) (crnV : String)
    (l m : List (String × AttrValue)) (h : imageToMapTail tagsOf image crnV l = some m)
    (kv : String × AttrValue) (hkv : kv ∈ l) : kv ∈ m := by
  unfold imageToMapTail at h
  simp only [Option.bind_eq_some] at h
  obtain ⟨a, ha, b, hb, c, hc, hm⟩ := h
  have h1 : kv ∈ a := appendChecksum_mem l a image.file ha kv hkv
  have h2 := mem_encryptionAppend image a kv h1
  have h3 : kv ∈ b := appendEncryptionKey_mem _ b image.encryptionKey hb kv h2
  have h4 : kv ∈ c := appendSourceVolume_mem b c image.sourceVolume hc kv h3
  have h5 := mem_catalogOfferingAppend image c kv h4
  have h6 := mem_remoteAppend image _ kv h5
  have h7 := mem_allowedUseAppend image _ kv h6
  injection hm with hm
  rw [← hm]
  exact List.mem_append_left _ h7

theorem imageToMap_ptrs_and_os (tagsOf : String → List String) (image : Image)
    (m : List (String × AttrValue)) (h : imageToMap tagsOf image = some m) :
    requiredImagePtrsPresent image = true ∧ hasOperatingSystemEntry m = true := by
  cases hname : image.name with
  | none => simp [imageToMap, hname] at h
  | some nameV =>
  cases hid : image.id with
  | none => simp [imageToMap, hname, hid] at h
  | some idV =>
  cases hstatus : image.status with
  | none => simp [imageToMap, hname, hid, hstatus] at h
  | some statusV =>
  cases hcrn : image.crn with
  | none => simp [imageToMap, hname, hid, hstatus, hcrn] at h
  | some crnV =>
  cases hvis : image.visibility with
  | none => simp [imageToMap, hname, hid, hstatus, hcrn, hvis] at h
  | some visV =>
  cases hos : image.operatingSystem with
  | none => simp [imageToMap, hname, hid, hstatus, hcrn, hvis, hos] at h
  | some os =>
  cases hosname : os.name with
  | none => simp [imageToMap, hname, hid, hstatus, hcrn, hvis, hos, hosname] at h
  | some osName =>
  cases hosarch : os.architecture with
  | none => simp [imageToMap, hname, hid, hstatus, hcrn, hvis, hos, hosname, hosarch] at h
  | some osArch =>
  constructor
  · simp [requiredImagePtrsPresent, hname, hid, hstatus, hcrn, hvis, hos, hosname, hosarch]
  · simp only [imageToMap, hname, hid, hstatus, hcrn, hvis, hos, hosname, hosarch] at h
    have hmem := imageToMapTail_mem tagsOf image crnV _ m h
      ("operating_system", AttrValue.entryList [dataSourceIBMISImageOperatingSystemToMap os])
      (List.mem_append_right _ (List.mem_cons_self _ _))
    rw [hasOperatingSystemEntry, List.any_eq_true]
    exact ⟨_, hmem, by simp⟩

theorem imagesInfoOf_mem (tagsOf : String → List String) :
    ∀ (imgs : List Image) (maps : List (List (String × AttrValue))),
      imagesInfoOf tagsOf imgs = some maps →
      ∀ img ∈ imgs, ∃ m, imageToMap tagsOf img = some m := by
  intro imgs
  induction imgs with
  | nil => intro maps _ img hmem; cases hmem
  | cons a as ih =>
    intro maps h img hmem
    unfold imagesInfoOf at h
    cases hm : imageToMap tagsOf a with
    | none => rw [hm] at h; cases h
    | some ma =>
      rw [hm] at h
      cases hrest : imagesInfoOf tagsOf as with
      | none => rw [hrest] at h; cases h
      | some ms =>
        rcases List.mem_cons.mp hmem with heq | hmem'
        · exact ⟨ma, heq ▸ hm⟩
        · exact ih ms hrest img hmem'

/-- C10: `imageList` unconditionally dereferences each listed image's
Name, ID, Status, CRN, Visibility and OperatingSystem (including its Name
and Architecture) pointers, so the result loop completes without a panic
only if all of these are non-nil for every image; under that precondition
the later nil-check guarding the `operating_system` block always takes the
non-nil branch — every successfully built map carries an
`operating_system` entry. -/
theorem imageList_unconditional_derefs (tagsOf : String → List String)
    (imgs : List Image) (maps : List (List (String × AttrValue)))
    (h : imagesInfoOf tagsOf imgs = some maps) :
    (∀ img ∈ imgs, requiredImagePtrsPresent img = true) ∧
    (∀ img ∈ imgs, ∀ m, imageToMap tagsOf img = some m →
      hasOperatingSystemEntry m = true) := by
  constructor
  · intro img hmem
    obtain ⟨m, hm⟩ := imagesInfoOf_mem tagsOf imgs maps h img hmem
    exact (imageToMap_ptrs_and_os tagsOf img m hm).1
  · intro img _ m hm
    exact (imageToMap_ptrs_and_os tagsOf img m hm).2

theorem imageList_unconditional_derefs_witness :
    (∀ img ∈ [sampleImage], requiredImagePtrsPresent img = true) ∧
    (∀ img ∈ [sampleImage], ∀ m, imageToMap noTags img = some m →
      hasOperatingSystemEntry m = true) :=
  imageList_unconditional_derefs noTags [sampleImage] sampleImageMaps rfl

end VpcImages
